import Mathlib

/-!
# Verification of the prompt text codec (`src/prompt_parser.py`)

Shallow embedding of the `PromptParser` class over `List Char` (Python `str`),
together with proofs about the encoder `convert_chat_prompt_to_text`, the
decoder `parse_chat_messages`, the classifier `is_chat_prompt` and the
dispatching encoder `convert_prompt_template_to_text`.

Python string primitives are embedded as structural recursions specialised to
the concrete one- and two-character patterns the source uses, so that every
definition evaluates inside the kernel.
-/

/-- The left brace character. -/
def lb : Char := '\x7b'

/-- The right brace character. -/
def rb : Char := '\x7d'

/-- The newline character; the delimiter of the flat format is two of these. -/
def nl : Char := '\n'

/-- Python whitespace (`str.strip` with no argument, equivalently
`str.isspace` per character): the code points CPython's Unicode database
marks as space — 09-0D, 1C-1F, 20, 85, A0, 1680, 2000-200A, 2028, 2029,
202F, 205F and 3000. -/
def pyIsSpace (c : Char) : Bool :=
  let n := c.toNat
  (9 ≤ n && n ≤ 13) || (28 ≤ n && n ≤ 31) || n == 32 || n == 133 || n == 160 ||
  n == 0x1680 || (0x2000 ≤ n && n ≤ 0x200A) || n == 0x2028 || n == 0x2029 ||
  n == 0x202F || n == 0x205F || n == 0x3000

/-- First character of a string, if any. -/
def firstChar : List Char → Option Char
  | [] => none
  | c :: _ => some c

/-- Last character of a string, if any. -/
def lastChar : List Char → Option Char
  | [] => none
  | [c] => some c
  | _ :: d :: cs => lastChar (d :: cs)

/-- Python `s.replace(a, rep)` for a one-character pattern `a`:
every occurrence of `a` is replaced by `rep`, scanning left to right. -/
def replace1 (a : Char) (rep : List Char) : List Char → List Char
  | [] => []
  | c :: cs => if c = a then rep ++ replace1 a rep cs else c :: replace1 a rep cs

/-- Python `s.replace(ab, rep)` for a two-character pattern `a b`:
non-overlapping occurrences are replaced left to right, the scan resuming
after each replaced occurrence. -/
def replace2 (a b : Char) (rep : List Char) : List Char → List Char
  | [] => []
  | [c] => [c]
  | c :: d :: cs =>
    if c = a ∧ d = b then rep ++ replace2 a b rep cs
    else c :: replace2 a b rep (d :: cs)

/-- Whether the two-character pattern `a b` occurs as a substring. -/
def contains2 (a b : Char) : List Char → Bool
  | [] => false
  | [_] => false
  | c :: d :: cs => (c == a && d == b) || contains2 a b (d :: cs)

/-- Whether the character `a` occurs in the string (Python `a in s`). -/
def containsChar (a : Char) : List Char → Bool
  | [] => false
  | c :: cs => c == a || containsChar a cs

/-- Prepend a character to the first piece of a split result. -/
def consHead (c : Char) : List (List Char) → List (List Char)
  | [] => [[c]]
  | l :: ls => (c :: l) :: ls

/-- Python `s.split(ab)` for the two-character separator `a b`:
split at each non-overlapping occurrence; the empty string yields `[""]`. -/
def split2 (a b : Char) : List Char → List (List Char)
  | [] => [[]]
  | [c] => [[c]]
  | c :: d :: cs =>
    if c = a ∧ d = b then [] :: split2 a b cs
    else consHead c (split2 a b (d :: cs))

/-- Python `s.partition(x)` for a one-character separator, returning the part
before the first occurrence and the part after it; when `x` does not occur the
whole string is the first component and the second is empty. -/
def partition1 (x : Char) : List Char → List Char × List Char
  | [] => ([], [])
  | c :: cs =>
    if c = x then ([], cs)
    else
      let p := partition1 x cs
      (c :: p.1, p.2)

/-- Remove leading Python whitespace. -/
def stripFront : List Char → List Char
  | [] => []
  | c :: cs => if pyIsSpace c then stripFront cs else c :: cs

/-- Python `s.strip()`: remove leading and trailing whitespace. -/
def pyStrip (s : List Char) : List Char :=
  (stripFront (stripFront s).reverse).reverse

/-- Python `sep.join(pieces)`. -/
def pyJoin (sep : List Char) : List (List Char) → List Char
  | [] => []
  | [l] => l
  | l :: l2 :: rest => l ++ sep ++ pyJoin sep (l2 :: rest)

/-- Python `s.startswith(p)` for an arbitrary literal `p`. -/
def startsWithSeq : List Char → List Char → Bool
  | [], _ => true
  | _ :: _, [] => false
  | p :: ps, c :: cs => p == c && startsWithSeq ps cs

/-- Python `s.startswith(ab)` for a two-character literal. -/
def startsWith2 (a b : Char) : List Char → Bool
  | c :: d :: _ => c == a && d == b
  | _ => false

/-- Python `s.endswith(ab)` for a two-character literal. -/
def endsWith2 (a b : Char) (s : List Char) : Bool :=
  startsWith2 b a s.reverse

/-!
## Python format-string parsing (the dependency behind `from_template`)

Modelled from the dependency, not from this repository: LangChain's
`from_template` derives a template's `input_variables` eagerly with Python's
`string.Formatter().parse`, so a malformed f-string raises `ValueError`
inside the decoder.  The functions below reproduce CPython's
`MarkupIterator_next` scanner (Objects/stringlib/unicode_format.h): literal
text with `"{{"`/`"}}"` escapes, a field name terminated by `'}'`, `':'` or
`'!'` (with `'['…`']'` index sections scanned opaquely and a nested `'{'`
rejected), an optional one-character conversion that must be followed by
`':'` or `'}'`, and a brace-counted format spec.  Error messages match
CPython's.
-/

/-- The apostrophe character, used to quote braces in CPython's messages. -/
def apos : Char := '\x27'

/-- CPython: `Single '{' encountered in format string` (or `'}'`). -/
def errSingleBrace (b : Char) : List Char :=
  "Single ".toList ++ apos :: b :: apos :: " encountered in format string".toList

/-- CPython: `expected '}' before end of string`. -/
def errExpectedRbraceEos : List Char :=
  "expected ".toList ++ apos :: rb :: apos :: " before end of string".toList

/-- CPython: `unexpected '{' in field name`. -/
def errUnexpectedLbraceField : List Char :=
  "unexpected ".toList ++ apos :: lb :: apos :: " in field name".toList

/-- CPython: `unmatched '{' in format spec`. -/
def errUnmatchedLbraceSpec : List Char :=
  "unmatched ".toList ++ apos :: lb :: apos :: " in format spec".toList

/-- CPython: `end of string while looking for conversion specifier`. -/
def errEosConversion : List Char :=
  "end of string while looking for conversion specifier".toList

/-- CPython: `expected ':' after conversion specifier`. -/
def errExpectedColonConversion : List Char :=
  "expected ".toList ++ apos :: ':' :: apos :: " after conversion specifier".toList

/-- Scan a field name after an opening `'{'`.  `inBr` records being inside a
`'['`…`']'` index section, which is scanned without interpreting special
characters.  Returns the name, its terminator (`'}'`, `':'` or `'!'`) and the
rest of the string after the terminator. -/
def scanFieldName : Bool → List Char → Except (List Char) (List Char × Char × List Char)
  | _, [] => .error errExpectedRbraceEos
  | true, c :: cs =>
    match scanFieldName (c != ']') cs with
    | .error e => .error e
    | .ok (name, t, rest) => .ok (c :: name, t, rest)
  | false, c :: cs =>
    if c = lb then .error errUnexpectedLbraceField
    else if c = rb ∨ c = ':' ∨ c = '!' then .ok ([], c, cs)
    else
      match scanFieldName (c == '[') cs with
      | .error e => .error e
      | .ok (name, t, rest) => .ok (c :: name, t, rest)

/-- Scan a format spec: braces are counted, the spec ends on the `'}'` that
balances the field's opening brace; `depth` is the count of surplus open
braces.  Returns the rest of the string after the closing brace. -/
def scanSpec : Nat → List Char → Except (List Char) (List Char)
  | _, [] => .error errUnmatchedLbraceSpec
  | depth, c :: cs =>
    if c = lb then scanSpec (depth + 1) cs
    else if c = rb then
      match depth with
      | 0 => .ok cs
      | d + 1 => scanSpec d cs
    else scanSpec depth cs

/-- After the field name: `'}'` ends the markup; `':'` starts the format
spec; `'!'` reads a one-character conversion that must be followed by `'}'`
or `':'`. -/
def scanAfterName (t : Char) (rest : List Char) : Except (List Char) (List Char) :=
  if t = rb then .ok rest
  else if t = ':' then scanSpec 0 rest
  else
    match rest with
    | [] => .error errEosConversion
    | _ :: rest2 =>
      match rest2 with
      | [] => .error errUnmatchedLbraceSpec
      | c2 :: rest3 =>
        if c2 = rb then .ok rest3
        else if c2 = ':' then scanSpec 0 rest3
        else .error errExpectedColonConversion

/-- The literal-text loop of the scanner, collecting field names in order.
`fuel` only bounds the recursion (each markup consumes at least one
character, so `length + 1` never runs out); it keeps the recursion
structural so the kernel can evaluate the scanner. -/
def scanFormat : Nat → List Char → Except (List Char) (List (List Char))
  | 0, _ => .error []
  | _ + 1, [] => .ok []
  | fuel + 1, c :: cs =>
    if c = rb then
      match cs with
      | [] => .error (errSingleBrace rb)
      | d :: ds => if d = rb then scanFormat fuel ds else .error (errSingleBrace rb)
    else if c = lb then
      match cs with
      | [] => .error (errSingleBrace lb)
      | d :: ds =>
        if d = lb then scanFormat fuel ds
        else
          match scanFieldName false cs with
          | .error e => .error e
          | .ok (name, t, rest) =>
            match scanAfterName t rest with
            | .error e => .error e
            | .ok rest2 =>
              match scanFormat fuel rest2 with
              | .error e => .error e
              | .ok names => .ok (name :: names)
    else scanFormat fuel cs

/-- Python's `_string` formatter parse driven to completion: the ordered list
of field names of the format string, or the `ValueError` message. -/
def parseFormat (s : List Char) : Except (List Char) (List (List Char)) :=
  scanFormat (s.length + 1) s

/-- Python `<` on strings: lexicographic by code point. -/
def pyLt : List Char → List Char → Bool
  | [], [] => false
  | [], _ :: _ => true
  | _ :: _, [] => false
  | c :: cs, d :: ds =>
    if c.toNat < d.toNat then true
    else if d.toNat < c.toNat then false
    else pyLt cs ds

/-- Insertion into a sorted list of strings. -/
def insertSorted (v : List Char) : List (List Char) → List (List Char)
  | [] => [v]
  | w :: ws => if pyLt v w then v :: w :: ws else w :: insertSorted v ws

/-- Sort a list of strings in Python order. -/
def pySort : List (List Char) → List (List Char)
  | [] => []
  | v :: vs => insertSorted v (pySort vs)

/-- Keep one occurrence of each string. -/
def dedupList : List (List Char) → List (List Char)
  | [] => []
  | v :: vs =>
    let r := dedupList vs
    if v ∈ r then r else v :: r

/-- Python `sorted(set(vs))`: the canonical list form of a set of strings. -/
def pySortedSet (vs : List (List Char)) : List (List Char) :=
  pySort (dedupList vs)

instance {ε α : Type} [DecidableEq ε] [DecidableEq α] : DecidableEq (Except ε α) :=
  fun a b =>
    match a, b with
    | .error e1, .error e2 =>
      if h : e1 = e2 then .isTrue (h ▸ rfl)
      else .isFalse (fun hh => h (Except.error.inj hh))
    | .ok v1, .ok v2 =>
      if h : v1 = v2 then .isTrue (h ▸ rfl)
      else .isFalse (fun hh => h (Except.ok.inj hh))
    | .error _, .ok _ => .isFalse (fun hh => Except.noConfusion hh)
    | .ok _, .error _ => .isFalse (fun hh => Except.noConfusion hh)

/-!
## Data model

Encode side: the members of `ChatPromptTemplate.messages`.  A message is a
`MessagesPlaceholder`, a concrete `BaseMessage` (carrying `content`), or a
`BaseMessagePromptTemplate` (carrying `prompt.template` and
`prompt.input_variables`).  The `Role` tag abstracts the `isinstance` checks
of `_get_message_role`: `human`/`ai`/`system` stand for the recognised
`(Human|AI|System)(Message|MessagePromptTemplate)` classes, `unknown` for any
other concrete class.
-/

/-- The role resolved by `_get_message_role` via `isinstance` checks. -/
inductive Role
  | human
  | ai
  | system
  | unknown
deriving DecidableEq

/-- A member of `ChatPromptTemplate.messages`. -/
inductive ChatMessage
  | placeholder (variableName : List Char)
  | message (role : Role) (content : List Char)
  | messageTemplate (role : Role) (template : List Char) (inputVariables : List (List Char))
deriving DecidableEq

/-- The argument of `convert_prompt_template_to_text`: a `PromptTemplate`, a
`ChatPromptTemplate`, or any other `BasePromptTemplate` subclass (carrying its
type name for the error message). -/
inductive BasePromptTemplate
  | promptTemplate (template : List Char) (inputVariables : List (List Char))
  | chatPromptTemplate (messages : List ChatMessage)
  | otherTemplate (typeName : List Char)
deriving DecidableEq

/-- A message constructed by `parse_chat_messages`: a `MessagesPlaceholder`,
a static `(Human|AI|System)Message` (constructed with `content=...`), or a
`(Human|AI|System)MessagePromptTemplate` (constructed by `from_template` on
the unescaped content, which stores that template string together with the
`input_variables` the constructor infers from it). -/
inductive ParsedMessage
  | placeholder (variableName : List Char)
  | static (role : Role) (content : List Char)
  | template (role : Role) (content : List Char) (inputVariables : List (List Char))
deriving DecidableEq

/-- Role of a parsed message, if it has one. -/
def ParsedMessage.roleOf : ParsedMessage → Option Role
  | .placeholder _ => none
  | .static r _ => some r
  | .template r _ _ => some r

/-!
## The codec (`PromptParser`)
-/

/-- The class attribute `PromptParser.DELIMITER`, two newline characters. -/
def DELIMITER : List Char := [nl, nl]

/-- The brace doubling `content.replace` chain of source lines 62 and 92-94:
every left brace becomes two, then every right brace becomes two. -/
def escape (text : List Char) : List Char :=
  replace1 rb [rb, rb] (replace1 lb [lb, lb] text)

/-- The delimiter removal `text.replace(DELIMITER, "")` of source line 95. -/
def strip_delimiter (text : List Char) : List Char :=
  replace2 nl nl [] text

/-- The brace halving `content.replace` chain of source line 183: every
doubled left brace becomes one, then every doubled right brace becomes one. -/
def unescape (text : List Char) : List Char :=
  replace2 rb rb [rb] (replace2 lb lb [lb] text)

/-- The full content transform of the encoder (source lines 92-96). -/
def encode_content (content : List Char) : List Char :=
  strip_delimiter (escape content)

/-- The method `_get_message_role`: the role string emitted for a message. -/
def get_message_role : Role → List Char
  | .human => "Human".toList
  | .ai => "AI".toList
  | .system => "System".toList
  | .unknown => "Unknown".toList

/-- The line emitted for one message by `convert_chat_prompt_to_text`:
`"{{" + variable_name + "}}"` for a placeholder, `f"{role}: {content}"`
with the escaped, delimiter-stripped content otherwise (source lines 86-99). -/
def convert_line : ChatMessage → List Char
  | .placeholder name => [lb, lb] ++ name ++ [rb, rb]
  | .message role content => get_message_role role ++ ':' :: ' ' :: encode_content content
  | .messageTemplate role tmpl _ => get_message_role role ++ ':' :: ' ' :: encode_content tmpl

/-- The variable names one message contributes to the collected set:
`variable_name` for a placeholder, `prompt.input_variables` for a message
template, nothing for a plain message (source lines 88, 97-98). -/
def message_vars : ChatMessage → List (List Char)
  | .placeholder name => [name]
  | .message _ _ => []
  | .messageTemplate _ _ vars => vars

/-- Insertion into the collected variable set.  The Python source accumulates
a `set` and returns `list(...)` of it; the embedding determinises this as a
duplicate-free list in first-insertion order (claims compare variables only
up to set membership). -/
def insertVar (v : List Char) (vs : List (List Char)) : List (List Char) :=
  if v ∈ vs then vs else vs ++ [v]

/-- The encoder `convert_chat_prompt_to_text` (source lines 71-100): one line per message
joined with the delimiter, plus the collected input variables. -/
def convert_chat_prompt_to_text (msgs : List ChatMessage) :
    List Char × List (List Char) :=
  (pyJoin DELIMITER (msgs.map convert_line),
   msgs.foldl (fun acc m => (message_vars m).foldl (fun a v => insertVar v a) acc) [])

/-- The message of the `TypeError` raised for an unsupported template type. -/
def unsupported_message (typeName : List Char) : List Char :=
  "Unsupported prompt template type: ".toList ++ typeName

/-- The dispatching encoder `convert_prompt_template_to_text` (source lines 46-69): the escape-only
path for `PromptTemplate`, the chat path for `ChatPromptTemplate`, and a
`TypeError` otherwise, embedded as `Except`. -/
def convert_prompt_template_to_text :
    BasePromptTemplate → Except (List Char) (List Char × List (List Char))
  | .promptTemplate template inputVariables => .ok (escape template, inputVariables)
  | .chatPromptTemplate messages => .ok (convert_chat_prompt_to_text messages)
  | .otherTemplate typeName => .error (unsupported_message typeName)

/-- The classifier `is_chat_prompt` (source lines 129-142): does the text start with
`"Human:"`, `"AI:"` or `"System:"`? -/
def is_chat_prompt (prompt_text : List Char) : Bool :=
  (["Human".toList, "AI".toList, "System".toList]).any
    (fun role => startsWithSeq (role ++ [':']) prompt_text)

/-- The role lookup `message_mapping.get(role, ...)` (source lines 171-178): the three named
labels map to their kinds, everything else falls back to System. -/
def classify_role (role : List Char) : Role :=
  if role = "Human".toList then Role.human
  else if role = "AI".toList then Role.ai
  else if role = "System".toList then Role.system
  else Role.system

/-- Modelled from the dependency, not from this repository: LangChain's
`get_template_variables(template, "f-string")` — the sorted set of the field
names `Formatter().parse` extracts from the template, propagating the
`ValueError` the parse raises on a malformed format string. -/
def get_template_variables (template : List Char) :
    Except (List Char) (List (List Char)) :=
  match parseFormat template with
  | .error e => .error e
  | .ok fields => .ok (pySortedSet fields)

/-- CPython / LangChain: `Cannot have an input variable named 'stop', as it
is used internally, please rename.` -/
def errStopVariable : List Char :=
  "Cannot have an input variable named ".toList ++
    apos :: "stop".toList ++ apos :: ", as it is used internally, please rename.".toList

/-- Modelled from the dependency, not from this repository: LangChain's
`from_template` builds a `PromptTemplate` whose `input_variables` are
inferred eagerly by `get_template_variables` (raising `ValueError` on a
malformed f-string), and whose validator rejects an input variable named
`"stop"`.  On success the message template stores the template string and
the inferred variables. -/
def from_template (role : Role) (tmpl : List Char) :
    Except (List Char) ParsedMessage :=
  match get_template_variables tmpl with
  | .error e => .error e
  | .ok vars =>
    if "stop".toList ∈ vars then .error errStopVariable
    else .ok (.template role tmpl vars)

/-- The body of the decoder loop for one line (source lines 157-187): strip
the line; skip it when empty; recognise a `{{...}}` placeholder line; split at
the first colon and strip both parts; skip the line when the content is empty;
classify as template when the content contains both `"{{"` and `"}}"`;
construct the message — through `from_template` on the unescaped content for
a template line, so that call's `ValueError` propagates. -/
def parse_line (rawLine : List Char) : Except (List Char) (Option ParsedMessage) :=
  if pyStrip rawLine = [] then .ok none
  else if startsWith2 lb lb (pyStrip rawLine) && endsWith2 rb rb (pyStrip rawLine) then
    .ok (some (.placeholder (pyStrip (((pyStrip rawLine).drop 2).take
      ((pyStrip rawLine).length - 4)))))
  else if pyStrip (partition1 ':' (pyStrip rawLine)).2 = [] then .ok none
  else if contains2 lb lb (pyStrip (partition1 ':' (pyStrip rawLine)).2) &&
          contains2 rb rb (pyStrip (partition1 ':' (pyStrip rawLine)).2) then
    match from_template (classify_role (pyStrip (partition1 ':' (pyStrip rawLine)).1))
        (unescape (pyStrip (partition1 ':' (pyStrip rawLine)).2)) with
    | .error e => .error e
    | .ok m => .ok (some m)
  else
    .ok (some (.static (classify_role (pyStrip (partition1 ':' (pyStrip rawLine)).1))
           (pyStrip (partition1 ':' (pyStrip rawLine)).2)))

/-- The decoder loop over the split lines: messages are collected in order;
an error raised at any line aborts the whole call (the Python loop raises,
discarding the partial list). -/
def parse_lines : List (List Char) → Except (List Char) (List ParsedMessage)
  | [] => .ok []
  | l :: ls =>
    match parse_line l with
    | .error e => .error e
    | .ok none => parse_lines ls
    | .ok (some m) =>
      match parse_lines ls with
      | .error e => .error e
      | .ok ms => .ok (m :: ms)

/-- The decoder `parse_chat_messages` (source lines 144-188): strip the text, split on the
delimiter, and run the loop over the lines. -/
def parse_chat_messages (prompt_text : List Char) :
    Except (List Char) (List ParsedMessage) :=
  parse_lines (split2 nl nl (pyStrip prompt_text))

/-!
## Views and side conditions used by the claims
-/

/-- Decode-time collapse of the encode-time role: the decoder's fallback sends
the `Unknown` label to the System kind, all named labels to themselves. -/
def demote : Role → Role
  | .unknown => .system
  | r => r

/-- No leading or trailing Python whitespace. -/
def noOuterSpace (s : List Char) : Bool :=
  (match firstChar s with | none => true | some c => !pyIsSpace c) &&
  (match lastChar s with | none => true | some c => !pyIsSpace c)

/-- The hypotheses of the round-trip claim exactly as stated: contents carry
no literal delimiter substring and no unmatched braces (a left brace occurs
iff a right brace does). -/
def statedClean : ChatMessage → Prop
  | .placeholder name => contains2 nl nl name = false
  | .message _ c => contains2 nl nl c = false ∧ containsChar lb c = containsChar rb c
  | .messageTemplate _ t _ => contains2 nl nl t = false ∧ containsChar lb t = containsChar rb t

/-- The amended round-trip hypotheses.  Every content or placeholder name is
free of the delimiter and of outer whitespace; role-message contents are
non-empty; a static message carries no braces (so it decodes as static); a
templated message contains both braces, its template parses as a valid
format string, its declared `input_variables` are — as a set — exactly the
variables that parse infers, and none of them is the reserved name `stop`. -/
def cleanMessage : ChatMessage → Prop
  | .placeholder name => contains2 nl nl name = false ∧ noOuterSpace name = true
  | .message _ c => contains2 nl nl c = false ∧ noOuterSpace c = true ∧ c ≠ [] ∧
      containsChar lb c = false ∧ containsChar rb c = false
  | .messageTemplate _ t vars => contains2 nl nl t = false ∧ noOuterSpace t = true ∧
      t ≠ [] ∧ containsChar lb t = true ∧ containsChar rb t = true ∧
      get_template_variables t = Except.ok (pySortedSet vars) ∧
      "stop".toList ∉ pySortedSet vars

/-- The message the decoder reconstructs for a clean message: kinds and
contents are preserved, `Unknown` roles become System, and a decoded
template's `input_variables` are the declared ones as a canonical set. -/
def roundTripImage : ChatMessage → ParsedMessage
  | .placeholder name => .placeholder name
  | .message r c => .static (demote r) c
  | .messageTemplate r t vars => .template (demote r) t (pySortedSet vars)

instance : ∀ m, Decidable (statedClean m) := fun m =>
  match m with
  | .placeholder name => inferInstanceAs (Decidable (contains2 nl nl name = false))
  | .message _ c =>
      inferInstanceAs (Decidable (contains2 nl nl c = false ∧
        containsChar lb c = containsChar rb c))
  | .messageTemplate _ t _ =>
      inferInstanceAs (Decidable (contains2 nl nl t = false ∧
        containsChar lb t = containsChar rb t))

instance : ∀ m, Decidable (cleanMessage m) := fun m =>
  match m with
  | .placeholder name =>
      inferInstanceAs (Decidable (contains2 nl nl name = false ∧ noOuterSpace name = true))
  | .message _ c =>
      inferInstanceAs (Decidable (contains2 nl nl c = false ∧ noOuterSpace c = true ∧
        c ≠ [] ∧ containsChar lb c = false ∧ containsChar rb c = false))
  | .messageTemplate _ t vars =>
      inferInstanceAs (Decidable (contains2 nl nl t = false ∧ noOuterSpace t = true ∧
        t ≠ [] ∧ containsChar lb t = true ∧ containsChar rb t = true ∧
        get_template_variables t = Except.ok (pySortedSet vars) ∧
        "stop".toList ∉ pySortedSet vars))

/-- Whether `_get_message_role` resolves a message to a named role: `false`
for placeholders (which take the other branch of the encoder) and for the
`Unknown` fallback. -/
def namedRole : Role → Bool
  | .human => true
  | .ai => true
  | .system => true
  | .unknown => false

/-- The hypothesis of the classifier claim: the first message is not a
placeholder and resolves to one of the three named roles. -/
def resolvesToNamedRole : ChatMessage → Bool
  | .placeholder _ => false
  | .message r _ => namedRole r
  | .messageTemplate r _ _ => namedRole r

/-!
## Proof-side helper functions
-/

/-- Concatenation of the images of each character. -/
def concatMap (f : Char → List Char) : List Char → List Char
  | [] => []
  | c :: cs => f c ++ concatMap f cs

/-- Per-character effect of `escape`: both braces are doubled. -/
def escChar (c : Char) : List Char :=
  if c = lb then [lb, lb] else if c = rb then [rb, rb] else [c]

/-- Per-character doubling of the right brace only (the intermediate state of
`unescape ∘ escape` after the left braces have been halved again). -/
def escCharR (c : Char) : List Char :=
  if c = rb then [rb, rb] else [c]

/-!
## Helper lemmas: list and pattern primitives
-/

/-- Induction stepping over the two-at-a-time recursions of the primitives. -/
theorem twoStepInduction {motive : List Char → Prop} (h0 : motive [])
    (h1 : ∀ c, motive [c])
    (h2 : ∀ c d cs, motive cs → motive (d :: cs) → motive (c :: d :: cs)) :
    ∀ s, motive s := by
  have key : ∀ n s, List.length s ≤ n → motive s := by
    intro n
    induction n with
    | zero =>
      intro s hs
      cases s with
      | nil => exact h0
      | cons c cs => simp at hs
    | succ n ih =>
      intro s hs
      match s with
      | [] => exact h0
      | [c] => exact h1 c
      | c :: d :: cs =>
        have l1 : cs.length ≤ n := by simp at hs; omega
        have l2 : (d :: cs).length ≤ n := by simp at hs ⊢; omega
        exact h2 c d cs (ih cs l1) (ih (d :: cs) l2)
  intro s
  exact key s.length s le_rfl

theorem replace2_cons_match (a b : Char) (rep t : List Char) :
    replace2 a b rep (a :: b :: t) = rep ++ replace2 a b rep t := by
  simp [replace2]

theorem replace2_cons_cons_ne (a b c d : Char) (rep t : List Char)
    (h : ¬(c = a ∧ d = b)) :
    replace2 a b rep (c :: d :: t) = c :: replace2 a b rep (d :: t) := by
  simp [replace2, h]

theorem replace2_cons_ne (a b c : Char) (rep t : List Char) (h : c ≠ a) :
    replace2 a b rep (c :: t) = c :: replace2 a b rep t := by
  cases t with
  | nil => simp [replace2]
  | cons d cs => exact replace2_cons_cons_ne a b c d rep _ (fun hc => h hc.1)

theorem contains2_cons_cons (a b c d : Char) (t : List Char) :
    contains2 a b (c :: d :: t) = ((c == a && d == b) || contains2 a b (d :: t)) := rfl

theorem contains2_cons_ne (a b c : Char) (t : List Char) (h : c ≠ a) :
    contains2 a b (c :: t) = contains2 a b t := by
  cases t with
  | nil => rfl
  | cons d cs => simp [contains2_cons_cons, h]

theorem firstChar_append_ne_nil (a b : List Char) (h : a ≠ []) :
    firstChar (a ++ b) = firstChar a := by
  cases a with
  | nil => exact absurd rfl h
  | cons c cs => rfl

theorem lastChar_cons_cons (c d : Char) (cs : List Char) :
    lastChar (c :: d :: cs) = lastChar (d :: cs) := rfl

theorem lastChar_cons_ne_nil (c : Char) (t : List Char) (h : t ≠ []) :
    lastChar (c :: t) = lastChar t := by
  cases t with
  | nil => exact absurd rfl h
  | cons d cs => rfl

theorem lastChar_append_ne_nil (a b : List Char) (h : b ≠ []) :
    lastChar (a ++ b) = lastChar b := by
  induction a with
  | nil => rfl
  | cons c a' ih =>
    have hne : a' ++ b ≠ [] := by
      cases b with
      | nil => exact absurd rfl h
      | cons x xs => simp
    rw [List.cons_append, lastChar_cons_ne_nil c _ hne, ih]

theorem lastChar_isSome (s : List Char) (h : s ≠ []) : ∃ c, lastChar s = some c := by
  induction s using twoStepInduction with
  | h0 => exact absurd rfl h
  | h1 c => exact ⟨c, rfl⟩
  | h2 c d cs ih1 ih2 => exact (ih2 (by simp)).imp (fun x hx => by rwa [lastChar_cons_cons])

/-!
## Helper lemmas: escaping
-/

theorem replace1_append (a : Char) (rep x y : List Char) :
    replace1 a rep (x ++ y) = replace1 a rep x ++ replace1 a rep y := by
  induction x with
  | nil => rfl
  | cons c cs ih => by_cases h : c = a <;> simp [replace1, h, ih]

theorem escape_nil : escape [] = [] := rfl

theorem escape_cons (c : Char) (cs : List Char) :
    escape (c :: cs) = escChar c ++ escape cs := by
  have h1 : replace1 lb [lb, lb] (c :: cs)
      = (if c = lb then [lb, lb] else [c]) ++ replace1 lb [lb, lb] cs := by
    by_cases h : c = lb <;> simp [replace1, h]
  show replace1 rb [rb, rb] (replace1 lb [lb, lb] (c :: cs)) = _
  rw [h1, replace1_append]
  by_cases h : c = lb
  · subst h
    simp [escChar, replace1, show ¬lb = rb from by decide]
    rfl
  · by_cases h2 : c = rb
    · subst h2
      simp [escChar, replace1, show ¬rb = lb from by decide]
      rfl
    · simp [escChar, replace1, h, h2]
      rfl

theorem escChar_head (c : Char) : ∃ t, escChar c = c :: t := by
  unfold escChar
  split_ifs with hA hB
  · exact ⟨[lb], by rw [hA]⟩
  · exact ⟨[rb], by rw [hB]⟩
  · exact ⟨[], rfl⟩

theorem escChar_last (c : Char) : lastChar (escChar c) = some c := by
  unfold escChar
  split_ifs with hA hB
  · rw [hA]; rfl
  · rw [hB]; rfl
  · rfl

theorem escape_ne_nil (s : List Char) (h : s ≠ []) : escape s ≠ [] := by
  cases s with
  | nil => exact absurd rfl h
  | cons c cs =>
    rw [escape_cons]
    obtain ⟨t, ht⟩ := escChar_head c
    rw [ht]
    simp

theorem firstChar_escape (s : List Char) : firstChar (escape s) = firstChar s := by
  cases s with
  | nil => rfl
  | cons c cs =>
    rw [escape_cons]
    obtain ⟨t, ht⟩ := escChar_head c
    rw [ht]
    rfl

theorem lastChar_escape (s : List Char) : lastChar (escape s) = lastChar s := by
  induction s with
  | nil => rfl
  | cons c cs ih =>
    rw [escape_cons]
    cases cs with
    | nil =>
      rw [escape_nil, List.append_nil, escChar_last]
      rfl
    | cons d ds =>
      have hne : escape (d :: ds) ≠ [] := escape_ne_nil _ (by simp)
      rw [lastChar_append_ne_nil _ _ hne, ih, lastChar_cons_cons]

theorem replace2_lb_escape (s : List Char) :
    replace2 lb lb [lb] (escape s) = concatMap escCharR s := by
  induction s with
  | nil => rfl
  | cons c cs ih =>
    rw [escape_cons]
    by_cases hA : c = lb
    · subst hA
      rw [show escChar lb = [lb, lb] from by simp [escChar]]
      rw [show ([lb, lb] ++ escape cs) = lb :: lb :: escape cs from rfl]
      rw [replace2_cons_match, ih]
      simp [concatMap, escCharR, show ¬lb = rb from by decide]
    · by_cases hB : c = rb
      · subst hB
        rw [show escChar rb = [rb, rb] from by simp [escChar, show ¬rb = lb from by decide]]
        rw [show ([rb, rb] ++ escape cs) = rb :: rb :: escape cs from rfl]
        rw [replace2_cons_ne lb lb rb _ _ (by decide)]
        rw [replace2_cons_ne lb lb rb _ _ (by decide)]
        rw [ih]
        simp [concatMap, escCharR]
      · rw [show escChar c = [c] from by simp [escChar, hA, hB]]
        rw [show ([c] ++ escape cs) = c :: escape cs from rfl]
        rw [replace2_cons_ne lb lb c _ _ hA, ih]
        simp [concatMap, escCharR, hB]

theorem replace2_rb_concatMap (s : List Char) :
    replace2 rb rb [rb] (concatMap escCharR s) = s := by
  induction s with
  | nil => rfl
  | cons c cs ih =>
    by_cases h : c = rb
    · subst h
      rw [show concatMap escCharR (rb :: cs) = rb :: rb :: concatMap escCharR cs from by
        simp [concatMap, escCharR]]
      rw [replace2_cons_match, ih]
      rfl
    · rw [show concatMap escCharR (c :: cs) = c :: concatMap escCharR cs from by
        simp [concatMap, escCharR, h]]
      rw [replace2_cons_ne rb rb c _ _ h, ih]

/-- The escaping round trip holds for every string: doubling braces and then
halving doubled braces is the identity. -/
theorem unescape_escape (s : List Char) : unescape (escape s) = s := by
  show replace2 rb rb [rb] (replace2 lb lb [lb] (escape s)) = s
  rw [replace2_lb_escape, replace2_rb_concatMap]

theorem contains2_lb_escape (s : List Char) :
    contains2 lb lb (escape s) = containsChar lb s := by
  induction s with
  | nil => rfl
  | cons c cs ih =>
    rw [escape_cons]
    by_cases hA : c = lb
    · subst hA
      rw [show escChar lb = [lb, lb] from by simp [escChar]]
      rw [show ([lb, lb] ++ escape cs) = lb :: lb :: escape cs from rfl]
      simp [contains2_cons_cons, containsChar]
    · by_cases hB : c = rb
      · subst hB
        rw [show escChar rb = [rb, rb] from by simp [escChar, show ¬rb = lb from by decide]]
        rw [show ([rb, rb] ++ escape cs) = rb :: rb :: escape cs from rfl]
        rw [contains2_cons_ne _ _ _ _ (by decide), contains2_cons_ne _ _ _ _ (by decide), ih]
        simp [containsChar, show ¬rb = lb from by decide]
      · rw [show escChar c = [c] from by simp [escChar, hA, hB]]
        rw [show ([c] ++ escape cs) = c :: escape cs from rfl]
        rw [contains2_cons_ne _ _ _ _ hA, ih]
        simp [containsChar, hA]

theorem contains2_rb_escape (s : List Char) :
    contains2 rb rb (escape s) = containsChar rb s := by
  induction s with
  | nil => rfl
  | cons c cs ih =>
    rw [escape_cons]
    by_cases hA : c = lb
    · subst hA
      rw [show escChar lb = [lb, lb] from by simp [escChar]]
      rw [show ([lb, lb] ++ escape cs) = lb :: lb :: escape cs from rfl]
      rw [contains2_cons_ne _ _ _ _ (by decide), contains2_cons_ne _ _ _ _ (by decide), ih]
      simp [containsChar, show ¬lb = rb from by decide]
    · by_cases hB : c = rb
      · subst hB
        rw [show escChar rb = [rb, rb] from by simp [escChar, show ¬rb = lb from by decide]]
        rw [show ([rb, rb] ++ escape cs) = rb :: rb :: escape cs from rfl]
        simp [contains2_cons_cons, containsChar]
      · rw [show escChar c = [c] from by simp [escChar, hA, hB]]
        rw [show ([c] ++ escape cs) = c :: escape cs from rfl]
        rw [contains2_cons_ne _ _ _ _ hB, ih]
        simp [containsChar, hB]

theorem contains2_nl_escape (s : List Char) :
    contains2 nl nl (escape s) = contains2 nl nl s := by
  induction s with
  | nil => rfl
  | cons c cs ih =>
    rw [escape_cons]
    by_cases hA : c = lb
    · subst hA
      rw [show escChar lb = [lb, lb] from by simp [escChar]]
      rw [show ([lb, lb] ++ escape cs) = lb :: lb :: escape cs from rfl]
      rw [contains2_cons_ne _ _ _ _ (by decide), contains2_cons_ne _ _ _ _ (by decide), ih,
        contains2_cons_ne _ _ _ _ (by decide)]
    · by_cases hB : c = rb
      · subst hB
        rw [show escChar rb = [rb, rb] from by simp [escChar, show ¬rb = lb from by decide]]
        rw [show ([rb, rb] ++ escape cs) = rb :: rb :: escape cs from rfl]
        rw [contains2_cons_ne _ _ _ _ (by decide), contains2_cons_ne _ _ _ _ (by decide), ih,
          contains2_cons_ne _ _ _ _ (by decide)]
      · by_cases hC : c = nl
        · subst hC
          rw [show escChar nl = [nl] from by simp [escChar, show ¬nl = lb from by decide,
            show ¬nl = rb from by decide]]
          rw [show ([nl] ++ escape cs) = nl :: escape cs from rfl]
          cases cs with
          | nil => rfl
          | cons d ds =>
            obtain ⟨t, ht⟩ := escChar_head d
            have hesc : escape (d :: ds) = d :: (t ++ escape ds) := by
              rw [escape_cons, ht]
              rfl
            rw [hesc, contains2_cons_cons, ← hesc, ih, contains2_cons_cons]
        · rw [show escChar c = [c] from by simp [escChar, hA, hB]]
          rw [show ([c] ++ escape cs) = c :: escape cs from rfl]
          rw [contains2_cons_ne _ _ _ _ hC, ih, contains2_cons_ne _ _ _ _ hC]

theorem escape_id_of_no_braces (s : List Char) (h1 : containsChar lb s = false)
    (h2 : containsChar rb s = false) : escape s = s := by
  induction s with
  | nil => rfl
  | cons c cs ih =>
    simp only [containsChar, Bool.or_eq_false_iff, beq_eq_false_iff_ne, ne_eq] at h1 h2
    rw [escape_cons, show escChar c = [c] from by simp [escChar, h1.1, h2.1],
      ih h1.2 h2.2]
    rfl

theorem replace2_id_of_not_contains (a b : Char) (rep : List Char) :
    ∀ s, contains2 a b s = false → replace2 a b rep s = s := by
  intro s
  induction s using twoStepInduction with
  | h0 => intro _; rfl
  | h1 c => intro _; rfl
  | h2 c d cs ih1 ih2 =>
    intro h
    rw [contains2_cons_cons] at h
    simp only [Bool.or_eq_false_iff, Bool.and_eq_false_iff, beq_eq_false_iff_ne, ne_eq] at h
    have hcd : ¬(c = a ∧ d = b) := by
      rcases h.1 with hc | hd
      · exact fun hh => hc hh.1
      · exact fun hh => hd hh.2
    rw [replace2_cons_cons_ne _ _ _ _ _ _ hcd, ih2 h.2]

/-- Removing every occurrence of a doubled character leaves no occurrence of
that doubled character behind. -/
theorem contains2_replace2_same (a : Char) (s : List Char) :
    contains2 a a (replace2 a a [] s) = false := by
  induction s using twoStepInduction with
  | h0 => rfl
  | h1 c => rfl
  | h2 c d cs ih1 ih2 =>
    by_cases hm : c = a ∧ d = a
    · rw [hm.1, hm.2, replace2_cons_match]
      exact ih1
    · rw [replace2_cons_cons_ne _ _ _ _ _ _ hm]
      by_cases hc : c = a
      · have hd : ¬d = a := fun hd => hm ⟨hc, hd⟩
        rw [replace2_cons_ne _ _ _ _ _ hd] at ih2 ⊢
        subst hc
        rw [contains2_cons_cons]
        simp only [beq_eq_false_iff_ne] at *
        simp [hd, ih2]
      · rw [contains2_cons_ne _ _ _ _ hc]
        exact ih2

/-!
## Helper lemmas: splitting, stripping, partitioning, joining
-/

theorem split2_no_occurrence (a b : Char) :
    ∀ s, contains2 a b s = false → split2 a b s = [s] := by
  intro s
  induction s using twoStepInduction with
  | h0 => intro _; rfl
  | h1 c => intro _; rfl
  | h2 c d cs ih1 ih2 =>
    intro h
    rw [contains2_cons_cons] at h
    simp only [Bool.or_eq_false_iff, Bool.and_eq_false_iff, beq_eq_false_iff_ne, ne_eq] at h
    have hcd : ¬(c = a ∧ d = b) := by
      rcases h.1 with hc | hd
      · exact fun hh => hc hh.1
      · exact fun hh => hd hh.2
    rw [show split2 a b (c :: d :: cs) = consHead c (split2 a b (d :: cs)) from by
      simp [split2, hcd]]
    rw [ih2 h.2]
    rfl

theorem split2_through : ∀ (l r : List Char), contains2 nl nl l = false →
    lastChar l ≠ some nl →
    split2 nl nl (l ++ nl :: nl :: r) = l :: split2 nl nl r := by
  intro l
  induction l using twoStepInduction with
  | h0 =>
    intro r _ _
    simp [split2]
  | h1 c =>
    intro r _ hlast
    have hc : ¬c = nl := fun h => hlast (by rw [h]; rfl)
    simp [split2, hc, consHead]
  | h2 c d cs ih1 ih2 =>
    intro r h1 h2
    rw [contains2_cons_cons] at h1
    simp only [Bool.or_eq_false_iff, Bool.and_eq_false_iff, beq_eq_false_iff_ne, ne_eq] at h1
    have hcd : ¬(c = nl ∧ d = nl) := by
      rcases h1.1 with hc | hd
      · exact fun hh => hc hh.1
      · exact fun hh => hd hh.2
    have h1' : contains2 nl nl (d :: cs) = false := h1.2
    have h2' : lastChar (d :: cs) ≠ some nl := by rwa [lastChar_cons_cons] at h2
    rw [show ((c :: d :: cs) ++ nl :: nl :: r) = c :: d :: (cs ++ nl :: nl :: r) from by simp]
    rw [show split2 nl nl (c :: d :: (cs ++ nl :: nl :: r))
        = consHead c (split2 nl nl (d :: (cs ++ nl :: nl :: r))) from by simp [split2, hcd]]
    rw [show (d :: (cs ++ nl :: nl :: r)) = (d :: cs) ++ nl :: nl :: r from by simp]
    rw [ih2 r h1' h2']
    rfl

theorem pyJoin_cons_cons (sep l l2 : List Char) (rest : List (List Char)) :
    pyJoin sep (l :: l2 :: rest) = l ++ sep ++ pyJoin sep (l2 :: rest) := rfl

theorem split2_join : ∀ (lines : List (List Char)), lines ≠ [] →
    (∀ l ∈ lines, contains2 nl nl l = false ∧ lastChar l ≠ some nl) →
    split2 nl nl (pyJoin DELIMITER lines) = lines := by
  intro lines
  induction lines with
  | nil => intro h _; exact absurd rfl h
  | cons l ls ih =>
    intro _ hall
    cases ls with
    | nil =>
      exact split2_no_occurrence nl nl l (hall l (by simp)).1
    | cons l2 rest =>
      rw [pyJoin_cons_cons]
      rw [show (l ++ DELIMITER ++ pyJoin DELIMITER (l2 :: rest))
          = l ++ nl :: nl :: pyJoin DELIMITER (l2 :: rest) from by
        rw [List.append_assoc]; rfl]
      rw [split2_through _ _ (hall l (by simp)).1 (hall l (by simp)).2]
      rw [ih (by simp) (fun x hx => hall x (by simp [hx]))]

theorem stripFront_eq_self (s : List Char)
    (h : ∀ c, firstChar s = some c → pyIsSpace c = false) : stripFront s = s := by
  cases s with
  | nil => rfl
  | cons c cs => simp [stripFront, h c rfl]

theorem firstChar_reverse (s : List Char) : firstChar s.reverse = lastChar s := by
  induction s using twoStepInduction with
  | h0 => rfl
  | h1 c => rfl
  | h2 c d cs ih1 ih2 =>
    rw [show (c :: d :: cs).reverse = (d :: cs).reverse ++ [c] from by simp]
    rw [firstChar_append_ne_nil _ _ (by simp), ih2, lastChar_cons_cons]

theorem pyStrip_eq_self (s : List Char)
    (h1 : ∀ c, firstChar s = some c → pyIsSpace c = false)
    (h2 : ∀ c, lastChar s = some c → pyIsSpace c = false) : pyStrip s = s := by
  show (stripFront (stripFront s).reverse).reverse = s
  rw [stripFront_eq_self s h1]
  rw [stripFront_eq_self s.reverse (fun c hc => h2 c (by rwa [firstChar_reverse] at hc))]
  exact List.reverse_reverse s

theorem pyStrip_cons_space (c : Char) (s : List Char) (h : pyIsSpace c = true) :
    pyStrip (c :: s) = pyStrip s := by
  show (stripFront (stripFront (c :: s)).reverse).reverse = _
  rw [show stripFront (c :: s) = stripFront s from by simp [stripFront, h]]
  rfl

theorem pyStrip_nil : pyStrip [] = [] := rfl

theorem noOuterSpace_first (s : List Char) (h : noOuterSpace s = true) :
    ∀ c, firstChar s = some c → pyIsSpace c = false := by
  intro c hc
  unfold noOuterSpace at h
  rw [hc] at h
  rw [Bool.and_eq_true] at h
  simpa using h.1

theorem noOuterSpace_last (s : List Char) (h : noOuterSpace s = true) :
    ∀ c, lastChar s = some c → pyIsSpace c = false := by
  intro c hc
  unfold noOuterSpace at h
  rw [hc] at h
  rw [Bool.and_eq_true] at h
  simpa using h.2

theorem pyStrip_of_noOuterSpace (s : List Char) (h : noOuterSpace s = true) :
    pyStrip s = s :=
  pyStrip_eq_self s (noOuterSpace_first s h) (noOuterSpace_last s h)

theorem partition1_through (x : Char) : ∀ (a r : List Char), containsChar x a = false →
    partition1 x (a ++ x :: r) = (a, r) := by
  intro a
  induction a with
  | nil =>
    intro r _
    simp [partition1]
  | cons c a' ih =>
    intro r h
    simp only [containsChar, Bool.or_eq_false_iff, beq_eq_false_iff_ne, ne_eq] at h
    rw [List.cons_append]
    simp [partition1, h.1, ih r h.2]

theorem take_len_append : ∀ (a b : List Char), (a ++ b).take a.length = a := by
  intro a
  induction a with
  | nil => intro b; rfl
  | cons c a' ih => intro b; simp [List.take, ih]

/-!
## Helper lemmas: decoding the encoder's lines
-/

theorem startsWith2_cons_ne (a b c : Char) (xs : List Char) (h : c ≠ a) :
    startsWith2 a b (c :: xs) = false := by
  cases xs with
  | nil => rfl
  | cons d ds => simp [startsWith2, h]

theorem parse_line_placeholder (name : List Char) (hns : noOuterSpace name = true) :
    parse_line ([lb, lb] ++ name ++ [rb, rb]) = Except.ok (some (.placeholder name)) := by
  have hline : ([lb, lb] ++ name ++ [rb, rb]) = lb :: lb :: (name ++ [rb, rb]) := by simp
  have hfirst : firstChar ([lb, lb] ++ name ++ [rb, rb]) = some lb := by rw [hline]; rfl
  have hlast : lastChar ([lb, lb] ++ name ++ [rb, rb]) = some rb := by
    rw [lastChar_append_ne_nil _ _ (by simp)]
    rfl
  have hstrip : pyStrip ([lb, lb] ++ name ++ [rb, rb]) = [lb, lb] ++ name ++ [rb, rb] := by
    refine pyStrip_eq_self _ (fun c hc => ?_) (fun c hc => ?_)
    · rw [hfirst] at hc
      injection hc with hc
      subst hc
      decide
    · rw [hlast] at hc
      injection hc with hc
      subst hc
      decide
  have hsw : startsWith2 lb lb ([lb, lb] ++ name ++ [rb, rb]) = true := by
    rw [hline]
    simp [startsWith2]
  have hew : endsWith2 rb rb ([lb, lb] ++ name ++ [rb, rb]) = true := by
    show startsWith2 rb rb ([lb, lb] ++ name ++ [rb, rb]).reverse = true
    rw [show ([lb, lb] ++ name ++ [rb, rb]).reverse = rb :: rb :: (name.reverse ++ [lb, lb]) from by
      simp]
    simp [startsWith2]
  have hdrop : (([lb, lb] ++ name ++ [rb, rb]).drop 2) = name ++ [rb, rb] := by
    rw [hline]
    rfl
  have hlen : ([lb, lb] ++ name ++ [rb, rb]).length - 4 = name.length := by
    simp
  unfold parse_line
  rw [hstrip, hdrop, hlen, take_len_append, pyStrip_of_noOuterSpace name hns]
  rw [if_neg (by rw [hline]; simp), if_pos (by rw [hsw, hew]; rfl)]

theorem encode_content_clean (content : List Char)
    (hno : contains2 nl nl content = false) :
    encode_content content = escape content := by
  show strip_delimiter (escape content) = escape content
  show replace2 nl nl [] (escape content) = escape content
  exact replace2_id_of_not_contains nl nl [] _ (by rw [contains2_nl_escape]; exact hno)

theorem pyStrip_escape (content : List Char) (hos : noOuterSpace content = true) :
    pyStrip (escape content) = escape content := by
  refine pyStrip_eq_self _ (fun c hc => ?_) (fun c hc => ?_)
  · rw [firstChar_escape] at hc
    exact noOuterSpace_first content hos c hc
  · rw [lastChar_escape] at hc
    exact noOuterSpace_last content hos c hc

theorem parse_line_role_reduce (roleStr : List Char) (rr : Role) (content : List Char)
    (hrs1 : containsChar ':' roleStr = false)
    (hrs2 : ∃ c0 t, roleStr = c0 :: t ∧ pyIsSpace c0 = false ∧ c0 ≠ lb)
    (hrs3 : pyStrip roleStr = roleStr)
    (hrs4 : classify_role roleStr = rr)
    (hno : contains2 nl nl content = false)
    (hos : noOuterSpace content = true)
    (hne : content ≠ []) :
    parse_line (roleStr ++ ':' :: ' ' :: encode_content content)
      = if (contains2 lb lb (escape content) && contains2 rb rb (escape content)) = true
        then (match from_template rr content with
              | .error e => .error e
              | .ok m => .ok (some m))
        else .ok (some (.static rr (escape content))) := by
  obtain ⟨c0, t, hr, hc0, hc0lb⟩ := hrs2
  have hE : encode_content content = escape content := encode_content_clean content hno
  have hEne : escape content ≠ [] := escape_ne_nil content hne
  rw [hE]
  have hline : (roleStr ++ ':' :: ' ' :: escape content)
      = c0 :: (t ++ ':' :: ' ' :: escape content) := by rw [hr]; rfl
  have hfirst : firstChar (roleStr ++ ':' :: ' ' :: escape content) = some c0 := by
    rw [hline]; rfl
  have hlast : lastChar (roleStr ++ ':' :: ' ' :: escape content)
      = lastChar (escape content) := by
    rw [lastChar_append_ne_nil _ _ (by simp),
      lastChar_cons_ne_nil _ _ (by simp),
      lastChar_cons_ne_nil _ _ hEne]
  have hstrip : pyStrip (roleStr ++ ':' :: ' ' :: escape content)
      = roleStr ++ ':' :: ' ' :: escape content := by
    refine pyStrip_eq_self _ (fun c hc => ?_) (fun c hc => ?_)
    · rw [hfirst] at hc
      injection hc with hc
      subst hc
      exact hc0
    · rw [hlast, lastChar_escape] at hc
      exact noOuterSpace_last content hos c hc
  have hsw : startsWith2 lb lb (roleStr ++ ':' :: ' ' :: escape content) = false := by
    rw [hline]
    exact startsWith2_cons_ne _ _ _ _ hc0lb
  have hpart : partition1 ':' (roleStr ++ ':' :: ' ' :: escape content)
      = (roleStr, ' ' :: escape content) :=
    partition1_through ':' roleStr (' ' :: escape content) hrs1
  have hcontent : pyStrip (' ' :: escape content) = escape content := by
    rw [pyStrip_cons_space _ _ (by decide)]
    exact pyStrip_escape content hos
  unfold parse_line
  rw [hstrip, hpart, hcontent, hrs3, hrs4]
  rw [if_neg (by rw [hline]; simp), if_neg (by rw [hsw]; simp), if_neg hEne,
    unescape_escape]

theorem parse_line_role_static (roleStr : List Char) (rr : Role) (content : List Char)
    (hrs1 : containsChar ':' roleStr = false)
    (hrs2 : ∃ c0 t, roleStr = c0 :: t ∧ pyIsSpace c0 = false ∧ c0 ≠ lb)
    (hrs3 : pyStrip roleStr = roleStr)
    (hrs4 : classify_role roleStr = rr)
    (hno : contains2 nl nl content = false)
    (hos : noOuterSpace content = true)
    (hne : content ≠ [])
    (hlb : containsChar lb content = false)
    (hrb : containsChar rb content = false) :
    parse_line (roleStr ++ ':' :: ' ' :: encode_content content)
      = Except.ok (some (.static rr content)) := by
  rw [parse_line_role_reduce roleStr rr content hrs1 hrs2 hrs3 hrs4 hno hos hne]
  rw [if_neg (by rw [contains2_lb_escape, hlb]; simp)]
  rw [escape_id_of_no_braces content hlb hrb]

theorem parse_line_role_template (roleStr : List Char) (rr : Role) (content : List Char)
    (hrs1 : containsChar ':' roleStr = false)
    (hrs2 : ∃ c0 t, roleStr = c0 :: t ∧ pyIsSpace c0 = false ∧ c0 ≠ lb)
    (hrs3 : pyStrip roleStr = roleStr)
    (hrs4 : classify_role roleStr = rr)
    (hno : contains2 nl nl content = false)
    (hos : noOuterSpace content = true)
    (hne : content ≠ [])
    (hlb : containsChar lb content = true)
    (hrb : containsChar rb content = true)
    (vars : List (List Char))
    (hv : get_template_variables content = Except.ok vars)
    (hstop : "stop".toList ∉ vars) :
    parse_line (roleStr ++ ':' :: ' ' :: encode_content content)
      = Except.ok (some (.template rr content vars)) := by
  have hf : from_template rr content = Except.ok (ParsedMessage.template rr content vars) := by
    unfold from_template
    rw [hv]
    show (if "stop".toList ∈ vars then Except.error errStopVariable
          else Except.ok (ParsedMessage.template rr content vars)) = _
    rw [if_neg hstop]
  rw [parse_line_role_reduce roleStr rr content hrs1 hrs2 hrs3 hrs4 hno hos hne]
  rw [if_pos (by rw [contains2_lb_escape, contains2_rb_escape, hlb, hrb]; rfl)]
  rw [hf]

theorem role_string_facts (r : Role) :
    containsChar ':' (get_message_role r) = false ∧
    (∃ c0 t, get_message_role r = c0 :: t ∧ pyIsSpace c0 = false ∧ c0 ≠ lb) ∧
    pyStrip (get_message_role r) = get_message_role r ∧
    classify_role (get_message_role r) = demote r := by
  cases r with
  | human => exact ⟨by decide, ⟨'H', "uman".toList, by decide, by decide, by decide⟩,
      by decide, by decide⟩
  | ai => exact ⟨by decide, ⟨'A', "I".toList, by decide, by decide, by decide⟩,
      by decide, by decide⟩
  | system => exact ⟨by decide, ⟨'S', "ystem".toList, by decide, by decide, by decide⟩,
      by decide, by decide⟩
  | unknown => exact ⟨by decide, ⟨'U', "nknown".toList, by decide, by decide, by decide⟩,
      by decide, by decide⟩

theorem parse_line_convert (m : ChatMessage) (h : cleanMessage m) :
    parse_line (convert_line m) = Except.ok (some (roundTripImage m)) := by
  cases m with
  | placeholder name => exact parse_line_placeholder name h.2
  | message r c =>
    obtain ⟨hno, hos, hne, hlb, hrb⟩ := h
    obtain ⟨f1, f2, f3, f4⟩ := role_string_facts r
    exact parse_line_role_static _ _ _ f1 f2 f3 f4 hno hos hne hlb hrb
  | messageTemplate r t vars =>
    obtain ⟨hno, hos, hne, hlb, hrb, hv, hstop⟩ := h
    obtain ⟨f1, f2, f3, f4⟩ := role_string_facts r
    exact parse_line_role_template _ _ _ f1 f2 f3 f4 hno hos hne hlb hrb _ hv hstop

theorem contains2_append_same (a : Char) : ∀ (x y : List Char),
    contains2 a a x = false → contains2 a a y = false →
    (lastChar x = some a → firstChar y = some a → False) →
    contains2 a a (x ++ y) = false := by
  intro x
  induction x using twoStepInduction with
  | h0 => intro y _ hy _; exact hy
  | h1 c =>
    intro y _ hy hj
    cases y with
    | nil => rfl
    | cons d ys =>
      rw [show ([c] ++ d :: ys) = c :: d :: ys from rfl, contains2_cons_cons]
      by_cases hc : c = a
      · by_cases hd : d = a
        · exact absurd (hj (by rw [hc]; rfl) (by rw [hd]; rfl)) not_false
        · simp [hd, hy]
      · simp [hc, hy]
  | h2 c d cs ih1 ih2 =>
    intro y hx hy hj
    rw [contains2_cons_cons] at hx
    simp only [Bool.or_eq_false_iff] at hx
    rw [show ((c :: d :: cs) ++ y) = c :: ((d :: cs) ++ y) from rfl]
    rw [show (c :: ((d :: cs) ++ y)) = c :: d :: (cs ++ y) from rfl, contains2_cons_cons]
    rw [show (d :: (cs ++ y)) = (d :: cs) ++ y from rfl]
    rw [ih2 y hx.2 hy (fun h1 h2 => hj (by rwa [lastChar_cons_cons]) h2)]
    simp [hx.1]

theorem contains2_nl_encode_content (c : List Char) :
    contains2 nl nl (encode_content c) = false :=
  contains2_replace2_same nl (escape c)

theorem convert_line_ne_nil (m : ChatMessage) : convert_line m ≠ [] := by
  cases m with
  | placeholder name => simp [convert_line]
  | message r c => cases r <;> simp [convert_line, get_message_role]
  | messageTemplate r t vars => cases r <;> simp [convert_line, get_message_role]

theorem get_message_role_facts (r : Role) :
    ∃ c0 t, get_message_role r = c0 :: t ∧ pyIsSpace c0 = false ∧ c0 ≠ lb := by
  cases r with
  | human => exact ⟨'H', "uman".toList, by decide, by decide, by decide⟩
  | ai => exact ⟨'A', "I".toList, by decide, by decide, by decide⟩
  | system => exact ⟨'S', "ystem".toList, by decide, by decide, by decide⟩
  | unknown => exact ⟨'U', "nknown".toList, by decide, by decide, by decide⟩

theorem get_message_role_noDelim (r : Role) :
    contains2 nl nl (get_message_role r) = false := by
  cases r <;> decide

theorem convert_line_first (m : ChatMessage) :
    ∀ c, firstChar (convert_line m) = some c → pyIsSpace c = false := by
  intro c hc
  cases m with
  | placeholder name =>
    rw [show convert_line (.placeholder name) = ([lb, lb] ++ name) ++ [rb, rb] from by
          simp [convert_line],
        firstChar_append_ne_nil _ _ (by simp), firstChar_append_ne_nil _ _ (by simp),
        show firstChar [lb, lb] = some lb from rfl] at hc
    injection hc with hc
    subst hc
    decide
  | message r cc =>
    obtain ⟨c0, t, hr, hc0, _⟩ := get_message_role_facts r
    rw [show convert_line (.message r cc)
          = get_message_role r ++ ':' :: ' ' :: encode_content cc from rfl,
      firstChar_append_ne_nil _ _ (by rw [hr]; simp), hr,
      show firstChar (c0 :: t) = some c0 from rfl] at hc
    injection hc with hc
    subst hc
    exact hc0
  | messageTemplate r tt vars =>
    obtain ⟨c0, t, hr, hc0, _⟩ := get_message_role_facts r
    rw [show convert_line (.messageTemplate r tt vars)
          = get_message_role r ++ ':' :: ' ' :: encode_content tt from rfl,
      firstChar_append_ne_nil _ _ (by rw [hr]; simp), hr,
      show firstChar (c0 :: t) = some c0 from rfl] at hc
    injection hc with hc
    subst hc
    exact hc0

theorem convert_line_last (m : ChatMessage) (h : cleanMessage m) :
    ∀ c, lastChar (convert_line m) = some c → pyIsSpace c = false := by
  intro c hc
  cases m with
  | placeholder name =>
    rw [show convert_line (.placeholder name) = ([lb, lb] ++ name) ++ [rb, rb] from by
          simp [convert_line],
        lastChar_append_ne_nil _ _ (by simp),
        show lastChar [rb, rb] = some rb from rfl] at hc
    injection hc with hc
    subst hc
    decide
  | message r cc =>
    obtain ⟨hno, hos, hne, _⟩ := h
    rw [show convert_line (.message r cc)
          = get_message_role r ++ ':' :: ' ' :: encode_content cc from rfl,
      encode_content_clean cc hno,
      lastChar_append_ne_nil _ _ (by simp),
      lastChar_cons_ne_nil _ _ (by simp),
      lastChar_cons_ne_nil _ _ (escape_ne_nil cc hne),
      lastChar_escape] at hc
    exact noOuterSpace_last cc hos c hc
  | messageTemplate r tt vars =>
    obtain ⟨hno, hos, hne, _⟩ := h
    rw [show convert_line (.messageTemplate r tt vars)
          = get_message_role r ++ ':' :: ' ' :: encode_content tt from rfl,
      encode_content_clean tt hno,
      lastChar_append_ne_nil _ _ (by simp),
      lastChar_cons_ne_nil _ _ (by simp),
      lastChar_cons_ne_nil _ _ (escape_ne_nil tt hne),
      lastChar_escape] at hc
    exact noOuterSpace_last tt hos c hc

theorem convert_line_noDelim (m : ChatMessage) (h : cleanMessage m) :
    contains2 nl nl (convert_line m) = false := by
  cases m with
  | placeholder name =>
    rw [show convert_line (.placeholder name) = ([lb, lb] ++ name) ++ [rb, rb] from by
      simp [convert_line]]
    refine contains2_append_same nl _ _ ?_ (by decide) ?_
    · refine contains2_append_same nl _ _ (by decide) h.1 ?_
      intro h1 _
      rw [show lastChar [lb, lb] = some lb from rfl] at h1
      injection h1 with h1
      exact absurd h1 (by decide)
    · intro _ h2
      rw [show firstChar [rb, rb] = some rb from rfl] at h2
      injection h2 with h2
      exact absurd h2 (by decide)
  | message r cc =>
    rw [show convert_line (.message r cc)
        = get_message_role r ++ ':' :: ' ' :: encode_content cc from rfl]
    refine contains2_append_same nl _ _ (get_message_role_noDelim r) ?_ ?_
    · rw [contains2_cons_ne _ _ _ _ (by decide), contains2_cons_ne _ _ _ _ (by decide)]
      exact contains2_nl_encode_content cc
    · intro _ h2
      rw [show firstChar (':' :: ' ' :: encode_content cc) = some ':' from rfl] at h2
      injection h2 with h2
      exact absurd h2 (by decide)
  | messageTemplate r tt vars =>
    rw [show convert_line (.messageTemplate r tt vars)
        = get_message_role r ++ ':' :: ' ' :: encode_content tt from rfl]
    refine contains2_append_same nl _ _ (get_message_role_noDelim r) ?_ ?_
    · rw [contains2_cons_ne _ _ _ _ (by decide), contains2_cons_ne _ _ _ _ (by decide)]
      exact contains2_nl_encode_content tt
    · intro _ h2
      rw [show firstChar (':' :: ' ' :: encode_content tt) = some ':' from rfl] at h2
      injection h2 with h2
      exact absurd h2 (by decide)

theorem convert_line_last_ne_nl (m : ChatMessage) (h : cleanMessage m) :
    lastChar (convert_line m) ≠ some nl := fun hc =>
  absurd (convert_line_last m h nl hc) (by decide)

theorem pyJoin_ne_nil (sep l : List Char) (ls : List (List Char)) (h : l ≠ []) :
    pyJoin sep (l :: ls) ≠ [] := by
  cases ls with
  | nil => exact h
  | cons l2 rest =>
    rw [pyJoin_cons_cons]
    simp [h]

theorem firstChar_pyJoin (sep l : List Char) (ls : List (List Char)) (h : l ≠ []) :
    firstChar (pyJoin sep (l :: ls)) = firstChar l := by
  cases ls with
  | nil => rfl
  | cons l2 rest =>
    rw [pyJoin_cons_cons, firstChar_append_ne_nil _ _ (by simp [h]),
      firstChar_append_ne_nil _ _ h]

theorem lastChar_pyJoin_space : ∀ (lines : List (List Char)),
    (∀ l ∈ lines, l ≠ [] ∧ ∀ c, lastChar l = some c → pyIsSpace c = false) →
    ∀ c, lastChar (pyJoin DELIMITER lines) = some c → pyIsSpace c = false := by
  intro lines
  induction lines with
  | nil =>
    intro _ c hc
    exact Option.noConfusion hc
  | cons l ls ih =>
    intro hall c hc
    cases ls with
    | nil => exact (hall l (by simp)).2 c hc
    | cons l2 rest =>
      rw [pyJoin_cons_cons,
        lastChar_append_ne_nil _ _ (pyJoin_ne_nil _ _ _ (hall l2 (by simp)).1)] at hc
      exact ih (fun x hx => hall x (by simp [hx])) c hc

theorem parse_lines_convert (msgs : List ChatMessage) (h : ∀ m ∈ msgs, cleanMessage m) :
    parse_lines (msgs.map convert_line) = Except.ok (msgs.map roundTripImage) := by
  induction msgs with
  | nil => rfl
  | cons m ms ih =>
    rw [List.map_cons, List.map_cons]
    show parse_lines (convert_line m :: ms.map convert_line) = _
    unfold parse_lines
    rw [parse_line_convert m (h m (by simp)),
      ih (fun x hx => h x (List.mem_cons_of_mem m hx))]

/-- Round trip for clean input, amended form: the helper carrying the whole
argument; the claim theorem below instantiates it. -/
theorem chat_round_trip (msgs : List ChatMessage) (h : ∀ m ∈ msgs, cleanMessage m) :
    parse_chat_messages (convert_chat_prompt_to_text msgs).1
      = Except.ok (msgs.map roundTripImage) := by
  cases msgs with
  | nil => rfl
  | cons m ms =>
    have hlines : ∀ l ∈ (m :: ms).map convert_line,
        contains2 nl nl l = false ∧ lastChar l ≠ some nl := by
      intro l hl
      obtain ⟨x, hx, rfl⟩ := List.mem_map.1 hl
      exact ⟨convert_line_noDelim x (h x hx), convert_line_last_ne_nl x (h x hx)⟩
    have hstrip : pyStrip (pyJoin DELIMITER ((m :: ms).map convert_line))
        = pyJoin DELIMITER ((m :: ms).map convert_line) := by
      refine pyStrip_eq_self _ (fun c hc => ?_) (fun c hc => ?_)
      · rw [List.map_cons, firstChar_pyJoin _ _ _ (convert_line_ne_nil m)] at hc
        exact convert_line_first m c hc
      · refine lastChar_pyJoin_space ((m :: ms).map convert_line) ?_ c hc
        intro l hl
        obtain ⟨x, hx, rfl⟩ := List.mem_map.1 hl
        exact ⟨convert_line_ne_nil x, convert_line_last x (h x hx)⟩
    rw [show (convert_chat_prompt_to_text (m :: ms)).1
        = pyJoin DELIMITER ((m :: ms).map convert_line) from rfl]
    unfold parse_chat_messages
    rw [hstrip, split2_join _ (by simp) hlines, parse_lines_convert _ h]

/-!
## Helper lemmas: classification, non-emptiness, classifier text
-/

theorem classify_role_ne_unknown (x : List Char) : classify_role x ≠ Role.unknown := by
  unfold classify_role
  split_ifs <;> intro h <;> exact Role.noConfusion h

theorem replace2_ne_nil (a b : Char) (rep s : List Char) (hrep : rep ≠ []) (hs : s ≠ []) :
    replace2 a b rep s ≠ [] := by
  cases s with
  | nil => exact absurd rfl hs
  | cons c cs =>
    cases cs with
    | nil => simp [replace2]
    | cons d ds =>
      by_cases h : c = a ∧ d = b
      · rw [h.1, h.2, replace2_cons_match]
        simp [hrep]
      · rw [replace2_cons_cons_ne _ _ _ _ _ _ h]
        simp

theorem unescape_ne_nil (s : List Char) (h : s ≠ []) : unescape s ≠ [] := by
  show replace2 rb rb [rb] (replace2 lb lb [lb] s) ≠ []
  exact replace2_ne_nil _ _ _ _ (by simp) (replace2_ne_nil _ _ _ _ (by simp) h)

theorem startsWithSeq_append_same : ∀ (a p s : List Char),
    startsWithSeq (a ++ p) (a ++ s) = startsWithSeq p s := by
  intro a
  induction a with
  | nil => intro p s; rfl
  | cons c a' ih => intro p s; simp [startsWithSeq, ih]

theorem pyJoin_cons_eq_append (sep l : List Char) (ls : List (List Char)) :
    ∃ t, pyJoin sep (l :: ls) = l ++ t := by
  cases ls with
  | nil => exact ⟨[], by rw [List.append_nil]; rfl⟩
  | cons l2 rest =>
    exact ⟨sep ++ pyJoin sep (l2 :: rest), by rw [pyJoin_cons_cons, List.append_assoc]⟩

theorem is_chat_prompt_role_text (r : Role) (hr : namedRole r = true) (E t : List Char) :
    is_chat_prompt ((get_message_role r ++ ':' :: ' ' :: E) ++ t) = true := by
  unfold is_chat_prompt
  simp only [List.any_cons, List.any_nil, Bool.or_eq_true, Bool.or_false]
  cases r with
  | human =>
    left
    rw [show get_message_role Role.human = "Human".toList from rfl, List.append_assoc,
      startsWithSeq_append_same]
    simp [startsWithSeq]
  | ai =>
    right; left
    rw [show get_message_role Role.ai = "AI".toList from rfl, List.append_assoc,
      startsWithSeq_append_same]
    simp [startsWithSeq]
  | system =>
    right; right
    rw [show get_message_role Role.system = "System".toList from rfl, List.append_assoc,
      startsWithSeq_append_same]
    simp [startsWithSeq]
  | unknown => exact absurd hr (by decide)

/-!
## Claim theorems
-/

/-- Inversion of `from_template`: a successful call returns a template
message carrying the inferred variables, which exclude `"stop"`. -/
theorem from_template_inv (r : Role) (t : List Char) (m : ParsedMessage)
    (h : from_template r t = Except.ok m) :
    ∃ vs, m = ParsedMessage.template r t vs ∧
      get_template_variables t = Except.ok vs ∧ "stop".toList ∉ vs := by
  unfold from_template at h
  cases hg : get_template_variables t with
  | error e => rw [hg] at h; exact Except.noConfusion h
  | ok vars =>
    rw [hg] at h
    have hif : (if "stop".toList ∈ vars then Except.error errStopVariable
        else Except.ok (ParsedMessage.template r t vars)) = Except.ok m := h
    split_ifs at hif with hs
    all_goals first
      | exact Except.noConfusion hif
      | exact ⟨vars, (Except.ok.inj hif).symm, rfl, hs⟩

/-- Every message of a successful decode comes from a successful line. -/
theorem parse_lines_mem : ∀ (lines : List (List Char)) (msgs : List ParsedMessage),
    parse_lines lines = Except.ok msgs →
    ∀ m ∈ msgs, ∃ l ∈ lines, parse_line l = Except.ok (some m) := by
  intro lines
  induction lines with
  | nil =>
    intro msgs hp m hm
    have hmsgs : ([] : List ParsedMessage) = msgs := Except.ok.inj hp
    rw [← hmsgs] at hm
    exact absurd hm (by simp)
  | cons l ls ih =>
    intro msgs hp m hm
    unfold parse_lines at hp
    cases hpl : parse_line l with
    | error e =>
      rw [hpl] at hp
      exact Except.noConfusion hp
    | ok o =>
      rw [hpl] at hp
      cases o with
      | none =>
        obtain ⟨x, hx, hpx⟩ := ih msgs hp m hm
        exact ⟨x, by simp [hx], hpx⟩
      | some m0 =>
        cases hrest : parse_lines ls with
        | error e =>
          rw [hrest] at hp
          exact Except.noConfusion hp
        | ok ms =>
          rw [hrest] at hp
          have hmsgs : m0 :: ms = msgs := Except.ok.inj hp
          rw [← hmsgs] at hm
          rcases List.mem_cons.mp hm with rfl | hm2
          · exact ⟨l, by simp, hpl⟩
          · obtain ⟨x, hx, hpx⟩ := ih ms hrest m hm2
            exact ⟨x, by simp [hx], hpx⟩

/-- A successfully decoded line never produces an `Unknown` role. -/
theorem parse_line_role_not_unknown (l : List Char) (m : ParsedMessage)
    (h : parse_line l = Except.ok (some m)) :
    ParsedMessage.roleOf m ≠ some Role.unknown := by
  unfold parse_line at h
  split_ifs at h with h1 h2 h3 h4
  case _ =>
    exact absurd (Except.ok.inj h) (fun hc => Option.noConfusion hc)
  case _ =>
    have hm : _ = m := Option.some.inj (Except.ok.inj h)
    rw [← hm]
    exact fun hcon => Option.noConfusion hcon
  case _ =>
    exact absurd (Except.ok.inj h) (fun hc => Option.noConfusion hc)
  case _ =>
    cases hft : from_template (classify_role (pyStrip (partition1 ':' (pyStrip l)).1))
        (unescape (pyStrip (partition1 ':' (pyStrip l)).2)) with
    | error e =>
      rw [hft] at h
      exact Except.noConfusion h
    | ok m0 =>
      rw [hft] at h
      have hm : m0 = m := Option.some.inj (Except.ok.inj h)
      obtain ⟨vs, hshape, _, _⟩ := from_template_inv _ _ _ hft
      rw [← hm, hshape]
      exact fun hcon => classify_role_ne_unknown _ (Option.some.inj hcon)
  case _ =>
    have hm : _ = m := Option.some.inj (Except.ok.inj h)
    rw [← hm]
    exact fun hcon => classify_role_ne_unknown _ (Option.some.inj hcon)

/-!
## Claim theorems
-/

/-- Claim C1, counterexample to the claim as stated: the chat prompt holding a
single human message with empty content satisfies the claim's hypotheses (no
delimiter substring, no unmatched braces), yet it encodes to the line
`"Human: "`, whose content is empty after stripping, so decoding drops the
line and returns the empty sequence instead of one human message. -/
theorem C1_round_trip_counterexample :
    (∀ m ∈ [ChatMessage.message Role.human []], statedClean m) ∧
    parse_chat_messages (convert_chat_prompt_to_text
        [ChatMessage.message Role.human []]).1 = Except.ok [] ∧
    ([] : List ParsedMessage) ≠ [ChatMessage.message Role.human []].map roundTripImage := by
  refine ⟨by decide, by decide, by decide⟩

/-- Claim C1, amended: for every chat prompt in which placeholder names and
message contents contain no literal delimiter substring and no leading or
trailing whitespace, role-message contents are non-empty, static contents
contain no braces, and each templated message has a template that contains
braces and parses as a valid format string whose referenced variables are —
as a set — exactly the declared `input_variables`, none of them the reserved
name `stop`: decoding the flat text produced by encoding reconstructs the
same ordered sequence of kinds, roles and contents, with `Unknown` roles
becoming `System` and each decoded template's variables being the declared
ones compared as sets (returned in canonical sorted order). -/
theorem C1_round_trip_amended (msgs : List ChatMessage)
    (h : ∀ m ∈ msgs, cleanMessage m) :
    parse_chat_messages (convert_chat_prompt_to_text msgs).1
      = Except.ok (msgs.map roundTripImage) :=
  chat_round_trip msgs h

/-- Witness for C1 (amended) at the spec's concrete scenario: a static system
message followed by a human template with one variable marker. -/
theorem C1_round_trip_amended_witness :
    parse_chat_messages (convert_chat_prompt_to_text
        [ChatMessage.message Role.system ("You are helpful".toList),
         ChatMessage.messageTemplate Role.human
           ("Answer ".toList ++ lb :: "question".toList ++ [rb])
           [("question".toList)]]).1
      = Except.ok ([ChatMessage.message Role.system ("You are helpful".toList),
         ChatMessage.messageTemplate Role.human
           ("Answer ".toList ++ lb :: "question".toList ++ [rb])
           [("question".toList)]].map roundTripImage) :=
  C1_round_trip_amended _ (by decide)

/-- Claim C2: decode totality fails in the code.  Decoding
`"Human: {{}}}"` reaches `from_template("{}}")`, whose f-string parsing
raises `ValueError: Single rbrace encountered in format string`, so
`parse_chat_messages` raises instead of returning a (possibly partial) list;
the spec's lenient-decode contract is the intent and the eager constructor
call the slip.  The theorem evaluates the embedded decoder at the failing
input. -/
theorem C2_decode_raises :
    parse_chat_messages ("Human: ".toList ++ [lb, lb, rb, rb, rb])
      = Except.error (errSingleBrace rb) := by
  decide

/-- Claim C3, counterexample: decoding the template line
`"Human: Answer {{question}}"` yields a template message whose
`input_variables` field is `["question"]`, derived from the unescaped content
by the `from_template` call the decoder makes — not left underived as the
claim states. -/
theorem C3_variables_counterexample :
    parse_line ("Human: Answer ".toList ++ [lb, lb] ++ "question".toList ++ [rb, rb])
      = Except.ok (some (ParsedMessage.template Role.human
          ("Answer ".toList ++ lb :: "question".toList ++ [rb])
          [("question".toList)])) := by
  decide

/-- Claim C3, amended: the decoder's own loop adds no variable computation,
but every template message it returns carries an `input_variables` field
equal to the variables `get_template_variables` infers from the unescaped
template content inside `from_template` (and `"stop"` is never among them). -/
theorem C3_variables_amended (l : List Char) (m : ParsedMessage)
    (h : parse_line l = Except.ok (some m)) :
    ∀ r c vs, m = ParsedMessage.template r c vs →
      get_template_variables c = Except.ok vs ∧ "stop".toList ∉ vs := by
  intro r c vs hm
  subst hm
  unfold parse_line at h
  split_ifs at h with h1 h2 h3 h4
  all_goals first
    | exact absurd (Except.ok.inj h) (fun hc => Option.noConfusion hc)
    | exact absurd (Option.some.inj (Except.ok.inj h))
        (fun hc => ParsedMessage.noConfusion hc)
    | skip
  cases hft : from_template (classify_role (pyStrip (partition1 ':' (pyStrip l)).1))
      (unescape (pyStrip (partition1 ':' (pyStrip l)).2)) with
  | error e =>
    rw [hft] at h
    exact Except.noConfusion h
  | ok m0 =>
    rw [hft] at h
    have hm0 : m0 = ParsedMessage.template r c vs := Option.some.inj (Except.ok.inj h)
    obtain ⟨vs2, hshape, hg, hs⟩ := from_template_inv _ _ _ hft
    rw [hm0] at hshape
    injection hshape with e1 e2 e3
    subst e2
    subst e3
    exact ⟨hg, hs⟩

/-- Witness for C3 (amended): the decoded template of
`"Human: Answer {{question}}"` carries exactly the inferred variables. -/
theorem C3_variables_amended_witness :
    get_template_variables ("Answer ".toList ++ lb :: "question".toList ++ [rb])
      = Except.ok [("question".toList)] ∧
    "stop".toList ∉ [("question".toList)] :=
  C3_variables_amended
    ("Human: Answer ".toList ++ [lb, lb] ++ "question".toList ++ [rb, rb])
    (ParsedMessage.template Role.human
      ("Answer ".toList ++ lb :: "question".toList ++ [rb]) [("question".toList)])
    (by decide) Role.human _ _ rfl


/-- Claim C4: classifier exactness on generated output.  When the first
message of a non-empty chat prompt resolves to a named role, the classifier
accepts the encoded text. -/
theorem C4_classifier_exact (first : ChatMessage) (rest : List ChatMessage)
    (h : resolvesToNamedRole first = true) :
    is_chat_prompt (convert_chat_prompt_to_text (first :: rest)).1 = true := by
  rw [show (convert_chat_prompt_to_text (first :: rest)).1
      = pyJoin DELIMITER (convert_line first :: rest.map convert_line) from rfl]
  obtain ⟨t, ht⟩ := pyJoin_cons_eq_append DELIMITER (convert_line first) (rest.map convert_line)
  rw [ht]
  cases first with
  | placeholder name => exact absurd h (by simp [resolvesToNamedRole])
  | message r c =>
    rw [show convert_line (.message r c)
        = get_message_role r ++ ':' :: ' ' :: encode_content c from rfl]
    exact is_chat_prompt_role_text r h _ t
  | messageTemplate r tt vars =>
    rw [show convert_line (.messageTemplate r tt vars)
        = get_message_role r ++ ':' :: ' ' :: encode_content tt from rfl]
    exact is_chat_prompt_role_text r h _ t

/-- Witness for C4 on a one-message AI prompt. -/
theorem C4_classifier_exact_witness :
    is_chat_prompt (convert_chat_prompt_to_text
        [ChatMessage.message Role.ai ("yo".toList)]).1 = true :=
  C4_classifier_exact _ [] (by decide)

/-- Claim C5: delimiter stripping is total — for every string, the result of
`strip_delimiter` contains no occurrence of the delimiter, and consequently
encoded message content never contains the delimiter verbatim. -/
theorem C5_strip_delimiter_total :
    (∀ s, contains2 nl nl (strip_delimiter s) = false) ∧
    (∀ content, contains2 nl nl (encode_content content) = false) :=
  ⟨fun s => contains2_replace2_same nl s, contains2_nl_encode_content⟩

/-- Claim C6: escaping round trip — for every string with only single braces
(no doubled braces), unescaping the escaped string gives the string back.
(The embedding proves this for every string; the claim's hypotheses are kept
in the statement.) -/
theorem C6_escape_round_trip (s : List Char)
    (h1 : contains2 lb lb s = false) (h2 : contains2 rb rb s = false) :
    unescape (escape s) = s :=
  unescape_escape s

/-- Witness for C6 on the string `"a{b}"`. -/
theorem C6_escape_round_trip_witness :
    contains2 lb lb ('a' :: lb :: 'b' :: [rb]) = false ∧
    contains2 rb rb ('a' :: lb :: 'b' :: [rb]) = false ∧
    unescape (escape ('a' :: lb :: 'b' :: [rb])) = 'a' :: lb :: 'b' :: [rb] :=
  ⟨by decide, by decide, C6_escape_round_trip _ (by decide) (by decide)⟩

/-- Claim C7, counterexample to part (a) as stated: the line `"Foo: "` followed
by two left braces and three right braces satisfies the claim's hypotheses (not
a placeholder line, role label outside the three known labels, non-empty
content), yet the decoder does not fall back to a System message: the content
passes the brace test, the unescaped template reaches `from_template`, and the
format-string scan raises a ValueError on the lone trailing right brace, so the
whole decode aborts. -/
theorem C7_role_fallback_counterexample :
    (startsWith2 lb lb (pyStrip ("Foo: ".toList ++ [lb, lb, rb, rb, rb])) &&
      endsWith2 rb rb (pyStrip ("Foo: ".toList ++ [lb, lb, rb, rb, rb]))) = false ∧
    pyStrip (partition1 ':' (pyStrip ("Foo: ".toList ++ [lb, lb, rb, rb, rb]))).1
      ≠ "Human".toList ∧
    pyStrip (partition1 ':' (pyStrip ("Foo: ".toList ++ [lb, lb, rb, rb, rb]))).1
      ≠ "AI".toList ∧
    pyStrip (partition1 ':' (pyStrip ("Foo: ".toList ++ [lb, lb, rb, rb, rb]))).1
      ≠ "System".toList ∧
    pyStrip (partition1 ':' (pyStrip ("Foo: ".toList ++ [lb, lb, rb, rb, rb]))).2
      ≠ [] ∧
    parse_line ("Foo: ".toList ++ [lb, lb, rb, rb, rb])
      = Except.error (errSingleBrace rb) := by
  refine ⟨by decide, by decide, by decide, by decide, by decide, by decide⟩

/-- Claim C7, amended: (a) for every line that is not a placeholder line and
has non-empty stripped content, if the stripped role label is none of
`"Human"`, `"AI"`, `"System"`, then: when the content fails the brace test the
decoder yields a System static message with that stripped content, and when
the content passes the brace test and the format-string scan of the unescaped
content succeeds with variables not containing `"stop"`, the decoder yields a
System template over the unescaped content with those variables.  (b) A
successful decode never returns a message whose role is `Unknown`. -/
theorem C7_role_fallback_amended :
    (∀ rawLine roleRaw contentRaw : List Char,
      (startsWith2 lb lb (pyStrip rawLine) && endsWith2 rb rb (pyStrip rawLine)) = false →
      partition1 ':' (pyStrip rawLine) = (roleRaw, contentRaw) →
      pyStrip roleRaw ≠ "Human".toList →
      pyStrip roleRaw ≠ "AI".toList →
      pyStrip roleRaw ≠ "System".toList →
      pyStrip contentRaw ≠ [] →
      (((contains2 lb lb (pyStrip contentRaw) &&
          contains2 rb rb (pyStrip contentRaw)) = false →
        parse_line rawLine =
          Except.ok (some (ParsedMessage.static Role.system (pyStrip contentRaw)))) ∧
       (∀ vars : List (List Char),
        (contains2 lb lb (pyStrip contentRaw) &&
          contains2 rb rb (pyStrip contentRaw)) = true →
        get_template_variables (unescape (pyStrip contentRaw)) = Except.ok vars →
        "stop".toList ∉ vars →
        parse_line rawLine =
          Except.ok (some (ParsedMessage.template Role.system
            (unescape (pyStrip contentRaw)) vars))))) ∧
    (∀ s : List Char, ∀ msgs : List ParsedMessage,
      parse_chat_messages s = Except.ok msgs →
      ∀ m ∈ msgs, ParsedMessage.roleOf m ≠ some Role.unknown) := by
  constructor
  · intro rawLine roleRaw contentRaw hph hpart hh ha hs hc
    have hsys : classify_role (pyStrip roleRaw) = Role.system := by
      unfold classify_role
      rw [if_neg hh, if_neg ha, if_neg hs]
    have hline : ¬(pyStrip rawLine = []) := by
      intro h0
      rw [h0] at hpart
      injection hpart with e1 e2
      rw [← e2] at hc
      exact hc rfl
    constructor
    · intro htm
      unfold parse_line
      rw [if_neg hline, if_neg (by simp [hph]), hpart]
      rw [show ((roleRaw, contentRaw).2 : List Char) = contentRaw from rfl,
        show ((roleRaw, contentRaw).1 : List Char) = roleRaw from rfl]
      rw [if_neg hc, if_neg (by simp [htm]), hsys]
    · intro vars htm hv hstop
      have hf : from_template (classify_role (pyStrip roleRaw))
          (unescape (pyStrip contentRaw))
          = Except.ok (ParsedMessage.template Role.system
              (unescape (pyStrip contentRaw)) vars) := by
        unfold from_template
        rw [hv, hsys]
        show (if "stop".toList ∈ vars then Except.error errStopVariable
              else Except.ok (ParsedMessage.template Role.system
                (unescape (pyStrip contentRaw)) vars)) = _
        rw [if_neg hstop]
      unfold parse_line
      rw [if_neg hline, if_neg (by simp [hph]), hpart]
      rw [show ((roleRaw, contentRaw).2 : List Char) = contentRaw from rfl,
        show ((roleRaw, contentRaw).1 : List Char) = roleRaw from rfl]
      rw [if_neg hc, if_pos (by simp [htm]), hf]
  · intro s msgs hp m hm
    unfold parse_chat_messages at hp
    obtain ⟨l, _, hpl⟩ := parse_lines_mem _ _ hp m hm
    exact parse_line_role_not_unknown l m hpl

/-- Witness for C7 amended: the unrecognised label `"Unknown"` decodes to a
System static message, and the message decoded from `"Human: hi"` has a
non-`Unknown` role. -/
theorem C7_role_fallback_amended_witness :
    parse_line ("Unknown: hi".toList)
      = Except.ok (some (ParsedMessage.static Role.system ("hi".toList))) ∧
    ParsedMessage.roleOf (ParsedMessage.static Role.human ("hi".toList))
      ≠ some Role.unknown := by
  constructor
  · have h := (C7_role_fallback_amended.1 ("Unknown: hi".toList) ("Unknown".toList)
      (' ' :: "hi".toList) (by decide) (by decide) (by decide) (by decide)
      (by decide) (by decide)).1 (by decide)
    rw [h]
    decide
  · exact C7_role_fallback_amended.2 ("Human: hi".toList)
      [ParsedMessage.static Role.human ("hi".toList)] (by decide)
      (ParsedMessage.static Role.human ("hi".toList)) (by decide)

/-- Claim C8: encoder error behaviour — `convert_prompt_template_to_text`
raises the unsupported-kind error iff its input is neither a plain template
nor a chat template, and returns a pair for the two recognised kinds. -/
theorem C8_encoder_error (pt : BasePromptTemplate) :
    ((∃ e, convert_prompt_template_to_text pt = Except.error e) ↔
      (∃ n, pt = BasePromptTemplate.otherTemplate n)) ∧
    ((∃ r, convert_prompt_template_to_text pt = Except.ok r) ↔
      (∀ n, pt ≠ BasePromptTemplate.otherTemplate n)) := by
  cases pt with
  | promptTemplate t v => constructor <;> simp [convert_prompt_template_to_text]
  | chatPromptTemplate ms => constructor <;> simp [convert_prompt_template_to_text]
  | otherTemplate n => constructor <;> simp [convert_prompt_template_to_text]

/-- Witness for C8: an unrecognised kind errors; a plain template succeeds. -/
theorem C8_encoder_error_witness :
    (∃ e, convert_prompt_template_to_text
        (BasePromptTemplate.otherTemplate ("FewShotPromptTemplate".toList))
      = Except.error e) ∧
    (∃ r, convert_prompt_template_to_text
        (BasePromptTemplate.promptTemplate ("Tell me a joke".toList) [])
      = Except.ok r) :=
  ⟨(C8_encoder_error _).1.mpr ⟨_, rfl⟩,
   (C8_encoder_error _).2.mpr (fun _ h => BasePromptTemplate.noConfusion h)⟩

/-- Claim C9: silent-drop decoding of degenerate input — the empty string
decodes to the empty sequence, `"Human: "` decodes to the empty sequence, and
in general any non-placeholder line whose content after the first colon is
empty after stripping produces no message. -/
theorem C9_degenerate_decode :
    parse_chat_messages [] = Except.ok [] ∧
    parse_chat_messages ("Human: ".toList) = Except.ok [] ∧
    (∀ rawLine : List Char,
      (startsWith2 lb lb (pyStrip rawLine) && endsWith2 rb rb (pyStrip rawLine)) = false →
      pyStrip (partition1 ':' (pyStrip rawLine)).2 = [] →
      parse_line rawLine = Except.ok none) := by
  refine ⟨by decide, by decide, ?_⟩
  intro rawLine h1 h2
  unfold parse_line
  by_cases g1 : pyStrip rawLine = []
  · rw [if_pos g1]
  · rw [if_neg g1, if_neg (by simp [h1]), if_pos h2]

/-- Witness for C9's general part on the line `"AI: "`. -/
theorem C9_degenerate_decode_witness : parse_line ("AI: ".toList) = Except.ok none :=
  C9_degenerate_decode.2.2 ("AI: ".toList) (by decide) (by decide)

/-- Claim C10: an empty chat prompt encodes to the empty string with an empty
variable list, and the classifier rejects that empty string, so an empty chat
prompt is not recognised as chat-structured after storage. -/
theorem C10_empty_prompt :
    convert_chat_prompt_to_text [] = ([], []) ∧
    is_chat_prompt (convert_chat_prompt_to_text []).1 = false := by
  constructor
  · rfl
  · decide
